import Mathlib

/-!
Shallow embedding of the Reward Selection & Redemption Engine of the
EliteClub gym backend (Sequelize models `Prize`, `PrizeWinning`, `Roulette`
and `QRCode`), together with theorems settling the specification claims.

Conventions of the embedding:
* Time instants are natural numbers counting whole minutes since an epoch
  that falls on a Sunday at midnight.  With that convention the JavaScript
  computations `setHours(0,0,0,0)` (start of the current day) and
  `setDate(getDate() - getDay())` followed by `setHours(0,0,0,0)` (start of
  the current week, weeks starting Sunday, since `getDay()` returns 0 for
  Sunday) become pure arithmetic on minute counts.
* Fractional quantities (probability weights, prize values) are rationals.
* Database rows are Lean structures; nullable columns are `Option`s.
* JavaScript truthiness of a nullable positive-integer column (`if
  (this.max_per_day)`) is `Option Nat` being `some n` with `n ≠ 0`.
* Methods that `throw` are functions into `Except String`; methods that
  return a structured `{available, reason}` object return an `Avail`.
-/

/-- Minutes in one day. -/
def minutesPerDay : Nat := 1440

/-- Minutes in one week. -/
def minutesPerWeek : Nat := 10080

/-- Start of the day containing instant `now`: the JS
`todayStart.setHours(0, 0, 0, 0)`. -/
def dayStart (now : Nat) : Nat := now / minutesPerDay * minutesPerDay

/-- Start of the week (weeks starting Sunday) containing instant `now`: the
JS `weekStart.setDate(weekStart.getDate() - weekStart.getDay())` followed by
`setHours(0, 0, 0, 0)`; the epoch is a Sunday midnight, so this is rounding
down to a multiple of a week. -/
def weekStart (now : Nat) : Nat := now / minutesPerWeek * minutesPerWeek

/-- Day of week of an instant, 0 = Sunday: the JS `getDay()`. -/
def dayOfWeek (now : Nat) : Nat := now / minutesPerDay % 7

/-- Minute of the day of an instant: stands in for the JS
`toTimeString().slice(0, 8)` clock string (comparison of `HH:MM:SS` strings
is the same order as comparison of minute counts). -/
def timeOfDay (now : Nat) : Nat := now % minutesPerDay

/-- JS truthiness of a nullable integer column. -/
def optTruthy : Option Nat → Bool
  | none => false
  | some n => n != 0

/-- The structured `{available, reason}` result returned by the
availability, limit and eligibility checks. -/
structure Avail where
  available : Bool
  reason : Option String
deriving Repr, DecidableEq

/-- The all-clear result `{ available: true }`. -/
def Avail.ok : Avail := ⟨true, none⟩

/-- A failing result `{ available: false, reason }`. -/
def Avail.no (r : String) : Avail := ⟨false, some r⟩

/-! ## Weighted selector ("Roulette") sectors -/

/-- One sector of a roulette configuration: the members of the JSON objects
in `sectors_config` that the engine reads (`prize_id`, `probability`,
`color`).  `prize_id` and `color` are strings (a UUID and a CSS color);
`probability` is a number. -/
structure Sector where
  prize_id : String
  probability : Rat
  color : String
deriving Repr, DecidableEq

/-- The object returned by `Roulette.prototype.selectPrize`. -/
structure SpinResult where
  prize_id : String
  sector_index : Nat
  sector_config : Sector
deriving Repr, DecidableEq

/-- The `for (const sector of this.sectors_config)` loop of `selectPrize`:
walks the sectors accumulating `cumulative += sector.probability` and
returns the first sector with `random <= cumulative`, together with its
position `idx` (in the source the position is recovered with
`sectors_config.indexOf(sector)`, which for rows materialised from JSON is
the position of the iterated element). -/
def selectWalk : List Sector → Rat → Rat → Nat → Option SpinResult
  | [], _, _, _ => none
  | s :: rest, random, cumulative, idx =>
    let c := cumulative + s.probability
    if random ≤ c then some ⟨s.prize_id, idx, s⟩
    else selectWalk rest random c (idx + 1)

/-- `Roulette.prototype.selectPrize`, with the draw `random` (in the source
`Math.random() * 100`) passed explicitly.  Throws when no sectors are
configured; falls back to the last sector when the walk selects nothing. -/
def Roulette.selectPrize (sectors : List Sector) (random : Rat) :
    Except String SpinResult :=
  match sectors with
  | [] => .error "No hay sectores configurados en la ruleta"
  | s :: rest =>
    match selectWalk (s :: rest) random 0 0 with
    | some res => .ok res
    | none =>
      let last := (s :: rest).getLast (List.cons_ne_nil s rest)
      .ok ⟨last.prize_id, (s :: rest).length - 1, last⟩

/-- The draw of the selector: `Math.random() * 100` with the underlying
uniform value `u` of `Math.random()` passed explicitly. -/
def drawRandom (u : Rat) : Rat := u * 100

/-- Cumulative weight of the first `k` sectors of a configuration. -/
def prefixWeight (sectors : List Sector) (k : Nat) : Rat :=
  ((sectors.take k).map Sector.probability).sum

/-! ## Roulette configuration validation -/

/-- The body of the `value.forEach` check of the `isValidSectors` validator:
`!sector.prize_id || !sector.probability || !sector.color` (JS truthiness:
a string is falsy exactly when empty, a number exactly when zero). -/
def sectorFieldsTruthy (s : Sector) : Bool :=
  s.prize_id != "" && s.probability != 0 && s.color != ""

/-- Index of the first sector failing the field check, if any (the source
`forEach` throws at the first offending index). -/
def firstBadSector : List Sector → Nat → Option Nat
  | [], _ => none
  | s :: rest, i =>
    if sectorFieldsTruthy s then firstBadSector rest (i + 1) else some i

/-- The Sequelize field validator `isValidSectors` on `sectors_config`:
rejects when the probabilities do not sum to 100 within 0.01, then rejects
any sector with a falsy `prize_id`, `probability` or `color`. -/
def isValidSectors (sectors : List Sector) : Except String Unit :=
  let total := (sectors.map Sector.probability).sum
  if 1 / 100 < |total - 100| then
    .error "La suma de probabilidades debe ser 100%"
  else
    match firstBadSector sectors 0 with
    | some i =>
      .error ("Sector " ++ toString (i + 1) ++
        " debe tener prize_id, probability y color")
    | none => .ok ()

/-- `Roulette.prototype.validateSectorsConfiguration`: every sector's
`prize_id` must be the id of an existing prize; `existing` is the set of
prize ids the `Prize.findByPk` lookups resolve. -/
def validateSectorsConfiguration (existing : List String)
    (sectors : List Sector) : Except String Unit :=
  match sectors.find? (fun s => !existing.contains s.prize_id) with
  | some s => .error ("Premio " ++ s.prize_id ++ " no encontrado para sector")
  | none => .ok ()

/-- The complete save-time validation of a roulette's sector configuration:
the `isValidSectors` field validator always runs on save, and the
`beforeSave` hook additionally runs `validateSectorsConfiguration` when the
configuration is non-empty. -/
def rouletteSaveValidation (existing : List String)
    (sectors : List Sector) : Except String Unit := do
  isValidSectors sectors
  if sectors.length > 0 then validateSectorsConfiguration existing sectors
  else pure ()

/-! ## Prize catalog -/

/-- The columns of the `Prize` model that the engine reads. -/
structure Prize where
  is_active : Bool
  valid_from : Nat
  valid_until : Option Nat
  stock_quantity : Option Nat
  awarded_count : Nat
  redeemed_count : Nat
  auto_apply : Bool
  expiration_days : Option Nat
  max_per_client : Option Nat
  max_per_day : Option Nat
  max_per_week : Option Nat
deriving Repr, DecidableEq

/-- `Prize.prototype.isAvailable`. -/
def Prize.isAvailable (p : Prize) (now : Nat) : Avail :=
  if !p.is_active then .no "Premio desactivado"
  else if now < p.valid_from then .no "Premio aún no válido"
  else if (p.valid_until.map (fun d => decide (d < now))).getD false then
    .no "Premio expirado"
  else if (p.stock_quantity.map
      (fun q => decide (q ≤ p.awarded_count))).getD false then
    .no "Premio agotado"
  else .ok

/-- A row of the `prize_winnings` table, restricted to the columns the
limit, cooldown and lifecycle queries read. -/
structure WinningRow where
  client_id : String
  prize_id : String
  roulette_id : Option String
  status : String
  created_at : Nat
deriving Repr, DecidableEq

/-- `PrizeWinning.count({ where: { prize_id, created_at: { gte: since } } })`:
the number of winning rows for a prize created at or after `since` —
note the query does not constrain `status`. -/
def countPrizeSince (rows : List WinningRow) (pid : String) (since : Nat) :
    Nat :=
  (rows.filter (fun r => r.prize_id == pid && since ≤ r.created_at)).length

/-- `Prize.prototype.checkLimits`: rejects when the day's count of winning
rows for the prize has reached `max_per_day`, then when the week's count has
reached `max_per_week` (each cap checked only when set and non-zero). -/
def Prize.checkLimits (p : Prize) (pid : String) (rows : List WinningRow)
    (now : Nat) : Avail :=
  if optTruthy p.max_per_day &&
      p.max_per_day.getD 0 ≤ countPrizeSince rows pid (dayStart now) then
    .no "Límite diario alcanzado"
  else if optTruthy p.max_per_week &&
      p.max_per_week.getD 0 ≤ countPrizeSince rows pid (weekStart now) then
    .no "Límite semanal alcanzado"
  else .ok

/-- One engine draw against the prize catalog: `PrizeWinning.afterCreate`
runs `prize.incrementAwarded()` for the created row, and the engine creates
the row only after `isAvailable` succeeded, so a guarded draw increments
`awarded_count` exactly when the prize is available at the draw instant. -/
def Prize.drawStep (p : Prize) (now : Nat) : Prize :=
  if (p.isAvailable now).available then
    { p with awarded_count := p.awarded_count + 1 }
  else p

/-- A sequence of guarded draws at the given instants. -/
def Prize.drawRun (p : Prize) : List Nat → Prize
  | [] => p
  | t :: ts => (p.drawStep t).drawRun ts

/-! ## Roulette availability, spin limits and cooldown -/

/-- The columns of the `Roulette` model read by `isAvailable` and
`canClientSpin` (hour bounds as minute-of-day counts). -/
structure Roulette where
  is_active : Bool
  valid_from : Nat
  valid_until : Option Nat
  available_days : List Nat
  available_hours_start : Option Nat
  available_hours_end : Option Nat
  max_spins_per_day : Option Nat
  max_spins_per_week : Option Nat
  cooldown_minutes : Nat
deriving Repr, DecidableEq

/-- `Roulette.prototype.isAvailable`. -/
def Roulette.isAvailable (rl : Roulette) (now : Nat) : Avail :=
  if !rl.is_active then .no "Ruleta desactivada"
  else if now < rl.valid_from then .no "Ruleta aún no válida"
  else if (rl.valid_until.map (fun d => decide (d < now))).getD false then
    .no "Ruleta expirada"
  else if !rl.available_days.contains (dayOfWeek now) then
    .no "Ruleta no disponible hoy"
  else
    match rl.available_hours_start, rl.available_hours_end with
    | some s, some e =>
      let t := timeOfDay now
      let inRange := if e < s then t ≥ s || t ≤ e else t ≥ s && t ≤ e
      if !inRange then .no "Ruleta no disponible en este horario" else .ok
    | _, _ => .ok

/-- `PrizeWinning.count({ where: { client_id, roulette_id, created_at:
{ gte: since } } })` — again with no `status` constraint. -/
def countClientSpinsSince (rows : List WinningRow) (cid rid : String)
    (since : Nat) : Nat :=
  (rows.filter (fun r =>
    r.client_id == cid && r.roulette_id == some rid &&
      since ≤ r.created_at)).length

/-- The `created_at` of the most recent winning row of the client on the
roulette at or after `since`: the `findOne` with `order created_at DESC` of
the cooldown check (only its `created_at` is read). -/
def latestClientSpinSince (rows : List WinningRow) (cid rid : String)
    (since : Nat) : Option Nat :=
  (rows.filterMap (fun r =>
    if r.client_id == cid && r.roulette_id == some rid &&
        since ≤ r.created_at then some r.created_at else none)).max?

/-- `Roulette.prototype.canClientSpin`: general availability, then the
daily and weekly spin caps, then the cooldown. -/
def Roulette.canClientSpin (rl : Roulette) (rid : String)
    (rows : List WinningRow) (cid : String) (now : Nat) : Avail :=
  let availability := rl.isAvailable now
  if !availability.available then availability
  else if optTruthy rl.max_spins_per_day &&
      rl.max_spins_per_day.getD 0 ≤
        countClientSpinsSince rows cid rid (dayStart now) then
    .no "Límite diario de giros alcanzado"
  else if optTruthy rl.max_spins_per_week &&
      rl.max_spins_per_week.getD 0 ≤
        countClientSpinsSince rows cid rid (weekStart now) then
    .no "Límite semanal de giros alcanzado"
  else if 0 < rl.cooldown_minutes then
    match latestClientSpinSince rows cid rid (now - rl.cooldown_minutes) with
    | some created =>
      .no ("Debes esperar " ++
        toString (created + rl.cooldown_minutes - now) ++ " minutos")
    | none => .ok
  else .ok

/-- Rewrite every row's `status` through `g`, leaving every other column in
place (used to state that the limit queries ignore `status`). -/
def mapStatus (g : WinningRow → String) (rows : List WinningRow) :
    List WinningRow :=
  rows.map (fun r => { r with status := g r })

/-! ## Won-prize lifecycle ("PrizeWinning") -/

/-- The `status` enum of `PrizeWinning`. -/
inductive WStatus
  | pending | applied | redeemed | expired | cancelled
deriving Repr, DecidableEq

/-- The string stored in the `status` column (used in error messages such
as `Premio ya ${this.status}`). -/
def WStatus.text : WStatus → String
  | .pending => "pending"
  | .applied => "applied"
  | .redeemed => "redeemed"
  | .expired => "expired"
  | .cancelled => "cancelled"

/-- The columns of a `PrizeWinning` row that the lifecycle methods and the
`beforeUpdate` hook read or write. -/
structure Winning where
  status : WStatus
  requires_verification : Bool
  verified : Bool
  expires_date : Option Nat
  auto_applied : Bool
  applied_date : Option Nat
  redeemed_date : Option Nat
  cancelled_date : Option Nat
  cancelled_reason : Option String
  cancelled_by_user_id : Option String
  verified_by_user_id : Option String
  verified_date : Option Nat
  processed_by_user_id : Option String
  processing_notes : Option String
  notification_sent : Bool
deriving Repr, DecidableEq

/-- `PrizeWinning.prototype.isExpired`. -/
def Winning.isExpired (w : Winning) (now : Nat) : Bool :=
  match w.expires_date with
  | none => false
  | some d => d < now

/-- The structured result of `canBeApplied`. -/
structure CanApply where
  canApply : Bool
  reason : Option String
deriving Repr, DecidableEq

/-- `PrizeWinning.prototype.canBeApplied`. -/
def Winning.canBeApplied (w : Winning) (now : Nat) : CanApply :=
  if w.status ≠ .pending then
    ⟨false, some ("Premio ya " ++ w.status.text)⟩
  else if w.isExpired now then ⟨false, some "Premio expirado"⟩
  else if w.requires_verification && !w.verified then
    ⟨false, some "Requiere verificación"⟩
  else ⟨true, none⟩

/-- A lifecycle engine state: the persisted `PrizeWinning` row plus a count
of the prize side effects performed so far (the executions of the type
dispatch of `Prize.prototype.applyToClient` that report `applied: true`:
membership extension, points credit, free-product order, or the
registration-only branches). -/
structure LifeState where
  row : Winning
  sideEffects : Nat
deriving Repr, DecidableEq

/-- The outcome of a lifecycle method: the state as persisted when the call
returns or throws, and the thrown message if it threw.  (A method that
throws after having saved — as `verify` can — still leaves its earlier
writes persisted, which this shape captures.) -/
structure Outcome where
  state : LifeState
  error : Option String
deriving Repr, DecidableEq

/-- `PrizeWinning.prototype.apply`: validates with `canBeApplied` (throwing
the reason on failure, before any side effect), then runs
`prize.applyToClient`, which performs the prize's side effect and reports
`applied: true` exactly when the prize has `auto_apply`; on `applied:
true` the row moves to `applied` with its audit fields, and the won/applied
notification is sent when none was sent yet.  On `applied: false` the row
is left untouched and no error is raised. -/
def PrizeWinning.apply (p : Prize) (st : LifeState) (now : Nat)
    (uid : Option String) : Outcome :=
  let v := st.row.canBeApplied now
  if v.canApply then
    if p.auto_apply then
      ⟨⟨{ st.row with
            status := .applied
            auto_applied := true
            applied_date := some now
            processed_by_user_id := uid
            notification_sent := true },
        st.sideEffects + 1⟩, none⟩
    else ⟨st, none⟩
  else ⟨st, v.reason⟩

/-- `PrizeWinning.prototype.redeem`: throws unless the row is `pending` and
unexpired, then moves it to `redeemed` and sends the redeemed
notification. -/
def PrizeWinning.redeem (st : LifeState) (now : Nat) (uid : Option String)
    (notes : Option String) : Outcome :=
  if st.row.status ≠ .pending then
    ⟨st, some ("No se puede canjear un premio " ++ st.row.status.text)⟩
  else if st.row.isExpired now then ⟨st, some "El premio ha expirado"⟩
  else
    ⟨⟨{ st.row with
          status := .redeemed
          redeemed_date := some now
          processed_by_user_id := uid
          processing_notes := notes
          notification_sent := true },
      st.sideEffects⟩, none⟩

/-- The verification fields written by `PrizeWinning.prototype.verify`
before it saves. -/
def Winning.recordVerification (w : Winning) (now : Nat) (uid : String) :
    Winning :=
  { w with
      verified := true
      verified_by_user_id := some uid
      verified_date := some now }

/-- `PrizeWinning.prototype.verify`: unconditionally records the
verification and saves, then — when the prize is `auto_apply` — chains into
`apply`, whose failure propagates but cannot undo the saved verification. -/
def PrizeWinning.verify (p : Prize) (st : LifeState) (now : Nat)
    (uid : String) : Outcome :=
  let st1 : LifeState := ⟨st.row.recordVerification now uid, st.sideEffects⟩
  if p.auto_apply then PrizeWinning.apply p st1 now (some uid)
  else ⟨st1, none⟩

/-- `PrizeWinning.prototype.cancel`: throws when the row is `applied` or
`redeemed`; otherwise overwrites the row's status and cancellation fields
and sends the cancelled notification. -/
def PrizeWinning.cancel (st : LifeState) (now : Nat) (uid : String)
    (reason : String) : Outcome :=
  if st.row.status = .applied ∨ st.row.status = .redeemed then
    ⟨st, some "No se puede cancelar un premio ya aplicado o canjeado"⟩
  else
    ⟨⟨{ st.row with
          status := .cancelled
          cancelled_date := some now
          cancelled_by_user_id := some uid
          cancelled_reason := some reason
          notification_sent := true },
      st.sideEffects⟩, none⟩

/-- One caller-triggered lifecycle operation with its arguments (the prize
row is an argument of `apply` and `verify` because the methods re-fetch it,
so its flags may differ between calls). -/
inductive LifeOp
  | applyP (p : Prize) (now : Nat) (uid : Option String)
  | redeemP (now : Nat) (uid : Option String) (notes : Option String)
  | verifyP (p : Prize) (now : Nat) (uid : String)
  | cancelP (now : Nat) (uid : String) (reason : String)

/-- Dispatch one lifecycle operation. -/
def runOp : LifeOp → LifeState → Outcome
  | .applyP p now uid, st => PrizeWinning.apply p st now uid
  | .redeemP now uid notes, st => PrizeWinning.redeem st now uid notes
  | .verifyP p now uid, st => PrizeWinning.verify p st now uid
  | .cancelP now uid reason, st => PrizeWinning.cancel st now uid reason

/-- Run a sequence of lifecycle operations, threading the persisted state
(an operation that throws still leaves its persisted writes behind). -/
def runOps : List LifeOp → LifeState → LifeState
  | [], st => st
  | op :: ops, st => runOps ops (runOp op st).state

/-! ## Scan gate ("QRCode") -/

/-- The columns of the `QRCode` model read by `isValid`, `isValidTime` and
`use` (hour bounds as minute-of-day counts). -/
structure QRCode where
  is_active : Bool
  is_used : Bool
  used_date : Option Nat
  used_by_client_id : Option String
  current_uses : Nat
  max_uses : Nat
  scan_count : Nat
  last_scan_date : Option Nat
  valid_from : Nat
  valid_until : Option Nat
  time_restricted : Bool
  allowed_hours_start : Option Nat
  allowed_hours_end : Option Nat
  prize_category : String
deriving Repr, DecidableEq

/-- The structured `{valid, reason}` result of `QRCode.prototype.isValid`. -/
structure QRValid where
  valid : Bool
  reason : Option String
deriving Repr, DecidableEq

/-- `QRCode.prototype.isValid`. -/
def QRCode.isValid (q : QRCode) (now : Nat) : QRValid :=
  if !q.is_active then ⟨false, some "Código desactivado"⟩
  else if q.max_uses ≤ q.current_uses then ⟨false, some "Código agotado"⟩
  else if now < q.valid_from then ⟨false, some "Código aún no válido"⟩
  else if (q.valid_until.map (fun d => decide (d < now))).getD false then
    ⟨false, some "Código expirado"⟩
  else ⟨true, none⟩

/-- `QRCode.prototype.isValidTime` (the allowed-hours window may cross
midnight, in which case the source compares with `||`). -/
def QRCode.isValidTime (q : QRCode) (now : Nat) : Bool :=
  if !q.time_restricted then true
  else
    match q.allowed_hours_start, q.allowed_hours_end with
    | some s, some e =>
      let t := timeOfDay now
      if e < s then t ≥ s || t ≤ e else t ≥ s && t ≤ e
    | _, _ => true

/-- The object returned by a successful `QRCode.prototype.use`. -/
structure UseResult where
  uses_remaining : Nat
  prize_category : String
deriving Repr, DecidableEq

/-- `QRCode.prototype.use`: throws the `isValid` reason or the time
restriction message; otherwise increments `current_uses` and `scan_count`,
marks the gate used once `current_uses` reaches `max_uses`, and returns
the remaining-uses count and the gate's prize category. -/
def QRCode.use (q : QRCode) (now : Nat) (cid : String) :
    Except String (QRCode × UseResult) :=
  let validation := q.isValid now
  if !validation.valid then .error (validation.reason.getD "")
  else if !q.isValidTime now then .error "Código no válido en este horario"
  else
    let q1 := { q with
      current_uses := q.current_uses + 1
      scan_count := q.scan_count + 1
      last_scan_date := some now }
    let q2 :=
      if q1.max_uses ≤ q1.current_uses then
        { q1 with
            is_used := true
            used_date := some now
            used_by_client_id := some cid }
      else q1
    .ok (q2, ⟨q2.max_uses - q2.current_uses, q2.prize_category⟩)

/-- The gate state after an attempted use: the updated row on success, the
unchanged row when `use` throws. -/
def QRCode.useStep (q : QRCode) (now : Nat) (cid : String) : QRCode :=
  match q.use now cid with
  | .ok (q2, _) => q2
  | .error _ => q

/-- A sequence of attempted uses. -/
def QRCode.useRun (q : QRCode) : List (Nat × String) → QRCode
  | [] => q
  | a :: as => (q.useStep a.1 a.2).useRun as

/-! ## Redemption code issuer -/

/-- The alphabet of `generateRedemptionCode`:
`ABCDEFGHJKLMNPQRSTUVWXYZ23456789` — no letter O, zero, letter I or one. -/
def redemptionChars : List Char :=
  ['A', 'B', 'C', 'D', 'E', 'F', 'G', 'H', 'J', 'K', 'L', 'M', 'N',
   'P', 'Q', 'R', 'S', 'T', 'U', 'V', 'W', 'X', 'Y', 'Z',
   '2', '3', '4', '5', '6', '7', '8', '9']

/-- The 8-character code generated on attempt `k`: character `i` is
`chars.charAt(Math.floor(Math.random() * chars.length))`, with the random
source modelled as the stream `rnd` of drawn alphabet indices (draw number
`8 * k + i` feeds attempt `k`, position `i`). -/
def genAttempt (rnd : Nat → Fin 32) (k : Nat) : List Char :=
  (List.range 8).map (fun i =>
    redemptionChars.get ⟨(rnd (8 * k + i)).val, (rnd (8 * k + i)).isLt⟩)

/-- The `do … while (attempts < maxAttempts)` loop of
`generateRedemptionCode`: attempt `k` regenerates while the code collides
with a stored one, with `fuel` attempts left including the current one;
when the last allowed attempt also collides the issuer throws. -/
def genLoop (existing : List (List Char)) (rnd : Nat → Fin 32) :
    Nat → Nat → Except String (List Char)
  | _, 0 => .error "No se pudo generar un código de canje único"
  | k, fuel + 1 =>
    let code := genAttempt rnd k
    if existing.contains code then genLoop existing rnd (k + 1) fuel
    else .ok code

/-- `PrizeWinning.generateRedemptionCode`: up to `maxAttempts = 10`
generations, returning the first code that matches no stored
`redemption_code`. -/
def generateRedemptionCode (existing : List (List Char))
    (rnd : Nat → Fin 32) : Except String (List Char) :=
  genLoop existing rnd 0 10

/-! ## Concrete instances used by witnesses and counterexamples -/

/-- Witness prize for C4: `max_per_day = 1`, no other caps. -/
def prizeC4 : Prize :=
  ⟨true, 0, none, none, 0, 0, true, none, none, some 1, none⟩

/-- Witness row for C4: a winning record created at minute 600 of day 0. -/
def rowC4 : WinningRow := ⟨"client", "prizeA", none, "pending", 600⟩

/-- Witness prize for C8: stock ceiling 2, nothing awarded yet. -/
def prizeC8 : Prize :=
  ⟨true, 0, none, some 2, 0, 0, true, none, none, none, none⟩

/-- Witness row for C10: a cancelled record created at minute 600. -/
def rowC10 : WinningRow := ⟨"client", "prizeA", none, "cancelled", 600⟩

/-- The fresh scan gate of the C5 scenario: `max_uses = 3`, nothing
consumed, no time restriction. -/
def qrC5 : QRCode :=
  ⟨true, false, none, none, 0, 3, 0, none, 0, none, false, none, none,
    "basic"⟩

/-- A saturated scan gate (`current_uses = max_uses = 2`). -/
def qrSatC5 : QRCode :=
  ⟨true, false, none, none, 2, 2, 5, none, 0, none, false, none, none,
    "basic"⟩

/-- Witness sectors for C2: weights 60 and 40. -/
def sectorsC2 : List Sector :=
  [⟨"prize-a", 60, "#111111"⟩, ⟨"prize-b", 40, "#222222"⟩]

/-- The C3 counterexample configuration: weights −5 and 105 sum to 100. -/
def sectorsC3 : List Sector :=
  [⟨"prize-a", -5, "#111111"⟩, ⟨"prize-b", 105, "#222222"⟩]

/-- Valid configuration for the C3 witness. -/
def sectorsC3ok : List Sector := [⟨"prize-a", 100, "#111111"⟩]

/-- An already-applied record for the C1 witness. -/
def winAppliedC1 : Winning :=
  ⟨.applied, false, false, none, true, some 3, none, none, none, none,
    none, none, none, none, true⟩

/-- An already-cancelled record (cancelled at minute 3). -/
def winCancelledC6 : Winning :=
  ⟨.cancelled, false, false, none, false, none, none, some 3,
    some "motivo original", some "staff", none, none, none, none, true⟩

/-- A fresh pending record. -/
def winPending : Winning :=
  ⟨.pending, false, false, none, false, none, none, none, none, none,
    none, none, none, none, false⟩

/-- The witness random stream for C7: the first eight draws give alphabet
index 0, every later draw gives index 1. -/
def rndC7 : Nat → Fin 32 := fun n => if n < 8 then 0 else 1

/-! ## Helper lemmas -/

theorem one_le_countPrizeSince {rows : List WinningRow} {pid : String}
    {since : Nat} (r : WinningRow) (hr : r ∈ rows) (hp : r.prize_id = pid)
    (ht : since ≤ r.created_at) : 1 ≤ countPrizeSince rows pid since := by
  have hmem : r ∈ rows.filter
      (fun r => r.prize_id == pid && since ≤ r.created_at) := by
    simp only [List.mem_filter, Bool.and_eq_true, beq_iff_eq,
      decide_eq_true_eq]
    exact ⟨hr, hp, ht⟩
  have hlen := List.length_pos.mpr (List.ne_nil_of_mem hmem)
  simpa [countPrizeSince] using hlen

/-! ## Claim theorems -/

/-- C4: `checkLimits` counts won-prize records for the prize since the
start of the current day and since the start of the current week (weeks
starting Sunday) and rejects exactly when the count has reached the
configured `max_per_day` or `max_per_week`; in particular, for a prize with
`max_per_day = 1`, once one record exists for the current day any further
draw attempt that day is rejected with the daily limit-exceeded error. -/
theorem c4_checkLimits_caps :
    (∀ (p : Prize) (pid : String) (rows : List WinningRow) (now : Nat),
      (p.checkLimits pid rows now).available = true ↔
        (optTruthy p.max_per_day = false ∨
          countPrizeSince rows pid (dayStart now) < p.max_per_day.getD 0) ∧
        (optTruthy p.max_per_week = false ∨
          countPrizeSince rows pid (weekStart now) < p.max_per_week.getD 0)) ∧
    (∀ (p : Prize) (pid : String) (rows : List WinningRow) (now : Nat)
      (r : WinningRow), p.max_per_day = some 1 → r ∈ rows →
      r.prize_id = pid → dayStart now ≤ r.created_at →
      p.checkLimits pid rows now = Avail.no "Límite diario alcanzado") := by
  constructor
  · intro p pid rows now
    unfold Prize.checkLimits
    split_ifs with h1 h2
    · rw [Bool.and_eq_true, decide_eq_true_eq] at h1
      simp only [Avail.no, Bool.false_eq_true, false_iff]
      rintro ⟨hd, -⟩
      rcases hd with hd | hd
      · simp [h1.1] at hd
      · omega
    · rw [Bool.and_eq_true, decide_eq_true_eq] at h2
      simp only [Avail.no, Bool.false_eq_true, false_iff]
      rintro ⟨-, hw⟩
      rcases hw with hw | hw
      · simp [h2.1] at hw
      · omega
    · rw [Bool.and_eq_true, not_and_or] at h1 h2
      simp only [Avail.ok, true_iff]
      constructor
      · rcases h1 with h | h
        · exact Or.inl (by simpa using h)
        · exact Or.inr (by simpa [decide_eq_true_eq] using h)
      · rcases h2 with h | h
        · exact Or.inl (by simpa using h)
        · exact Or.inr (by simpa [decide_eq_true_eq] using h)
  · intro p pid rows now r hcap hr hp ht
    have hcount := one_le_countPrizeSince r hr hp ht
    unfold Prize.checkLimits
    rw [if_pos]
    rw [hcap, Bool.and_eq_true, decide_eq_true_eq]
    exact ⟨rfl, by simpa [hcap] using hcount⟩



/-- Witness for C4: with `max_per_day = 1` and one record already created
today, a second draw attempt the same day is rejected. -/
theorem c4_checkLimits_caps_witness :
    prizeC4.checkLimits "prizeA" [rowC4] 700 =
      Avail.no "Límite diario alcanzado" :=
  c4_checkLimits_caps.2 prizeC4 "prizeA" [rowC4] 700 rowC4 rfl
    (List.mem_singleton.mpr rfl) rfl (by decide)

theorem drawStep_stock_le {p : Prize} {q : Nat}
    (hs : p.stock_quantity = some q) (hle : p.awarded_count ≤ q) (now : Nat) :
    (p.drawStep now).stock_quantity = some q ∧
      (p.drawStep now).awarded_count ≤ q := by
  unfold Prize.drawStep
  split_ifs with h
  · refine ⟨hs, ?_⟩
    show p.awarded_count + 1 ≤ q
    unfold Prize.isAvailable at h
    split_ifs at h with h1 h2 h3 h4
    · simp [Avail.no] at h
    · simp [Avail.no] at h
    · simp [Avail.no] at h
    · simp [Avail.no] at h
    · rw [hs] at h4
      simp only [Option.map_some', Option.getD_some, decide_eq_true_eq] at h4
      omega
  · exact ⟨hs, hle⟩

/-- C8: for every prize with a stock ceiling set, `awarded_count` never
exceeds `stock_quantity` under any sequence of engine draws (each an
`isAvailable` check followed by won-prize creation, whose `afterCreate`
hook increments the counter via `incrementAwarded`). -/
theorem c8_awarded_le_stock (p : Prize) (q : Nat) (ts : List Nat)
    (hs : p.stock_quantity = some q) (hle : p.awarded_count ≤ q) :
    (p.drawRun ts).awarded_count ≤ q := by
  induction ts generalizing p with
  | nil => exact hle
  | cons t ts ih =>
    have h := drawStep_stock_le hs hle t
    exact ih (p.drawStep t) h.1 h.2


/-- Witness for C8: five guarded draws against a stock ceiling of 2 leave
`awarded_count` at most 2. -/
theorem c8_awarded_le_stock_witness :
    (prizeC8.drawRun [1, 2, 3, 4, 5]).awarded_count ≤ 2 :=
  c8_awarded_le_stock prizeC8 2 [1, 2, 3, 4, 5] rfl (by decide)

theorem countPrizeSince_mapStatus (g : WinningRow → String)
    (rows : List WinningRow) (pid : String) (since : Nat) :
    countPrizeSince (mapStatus g rows) pid since =
      countPrizeSince rows pid since := by
  unfold countPrizeSince mapStatus
  rw [List.filter_map, List.length_map]
  rfl

theorem countClientSpinsSince_mapStatus (g : WinningRow → String)
    (rows : List WinningRow) (cid rid : String) (since : Nat) :
    countClientSpinsSince (mapStatus g rows) cid rid since =
      countClientSpinsSince rows cid rid since := by
  unfold countClientSpinsSince mapStatus
  rw [List.filter_map, List.length_map]
  rfl

theorem latestClientSpinSince_mapStatus (g : WinningRow → String)
    (rows : List WinningRow) (cid rid : String) (since : Nat) :
    latestClientSpinSince (mapStatus g rows) cid rid since =
      latestClientSpinSince rows cid rid since := by
  unfold latestClientSpinSince mapStatus
  rw [List.filterMap_map]
  rfl

/-- C10 (implicit): the daily and weekly limit counts of
`Prize.checkLimits` and `Roulette.canClientSpin` and the per-client
cooldown lookup ignore the `status` of the counted won-prize rows —
rewriting every row's status arbitrarily changes neither check — so a draw
whose record is later cancelled or expired still consumes the per-prize and
per-roulette daily/weekly caps and still triggers the cooldown; in
particular one `cancelled` record created today exhausts a
`max_per_day = 1` cap. -/
theorem c10_limits_ignore_status :
    (∀ (g : WinningRow → String) (p : Prize) (pid : String)
      (rows : List WinningRow) (now : Nat),
      p.checkLimits pid (mapStatus g rows) now = p.checkLimits pid rows now) ∧
    (∀ (g : WinningRow → String) (rl : Roulette) (rid : String)
      (rows : List WinningRow) (cid : String) (now : Nat),
      rl.canClientSpin rid (mapStatus g rows) cid now =
        rl.canClientSpin rid rows cid now) ∧
    (∀ (p : Prize) (pid : String) (rows : List WinningRow) (now : Nat)
      (r : WinningRow), p.max_per_day = some 1 → r ∈ rows →
      r.prize_id = pid → r.status = "cancelled" →
      dayStart now ≤ r.created_at →
      (p.checkLimits pid rows now).available = false) := by
  refine ⟨?_, ?_, ?_⟩
  · intro g p pid rows now
    unfold Prize.checkLimits
    rw [countPrizeSince_mapStatus, countPrizeSince_mapStatus]
  · intro g rl rid rows cid now
    unfold Roulette.canClientSpin
    rw [countClientSpinsSince_mapStatus, countClientSpinsSince_mapStatus,
      latestClientSpinSince_mapStatus]
  · intro p pid rows now r hcap hr hp _ ht
    have hcount := one_le_countPrizeSince r hr hp ht
    unfold Prize.checkLimits
    rw [if_pos]
    · rfl
    · rw [hcap, Bool.and_eq_true, decide_eq_true_eq]
      exact ⟨rfl, by simpa [hcap] using hcount⟩


/-- Witness for C10: the cancelled record still exhausts the
`max_per_day = 1` cap later the same day. -/
theorem c10_limits_ignore_status_witness :
    (prizeC4.checkLimits "prizeA" [rowC10] 700).available = false :=
  c10_limits_ignore_status.2.2 prizeC4 "prizeA" [rowC10] 700 rowC10 rfl
    (List.mem_singleton.mpr rfl) rfl rfl (by decide)

theorem isValid_true_uses_lt {q : QRCode} {now : Nat}
    (h : (q.isValid now).valid = true) : q.current_uses < q.max_uses := by
  unfold QRCode.isValid at h
  split_ifs at h with h1 h2 h3 h4
  omega

theorem use_ok_effects {q q' : QRCode} {now : Nat} {cid : String}
    {res : UseResult} (h : q.use now cid = .ok (q', res)) :
    q.current_uses < q.max_uses ∧
    q'.current_uses = q.current_uses + 1 ∧
    q'.max_uses = q.max_uses ∧
    q'.scan_count = q.scan_count + 1 ∧
    res.uses_remaining = q.max_uses - (q.current_uses + 1) ∧
    res.prize_category = q.prize_category ∧
    (q'.current_uses = q'.max_uses → q'.is_used = true) := by
  have hv : (q.isValid now).valid = true := by
    by_contra hv
    simp only [Bool.not_eq_true] at hv
    simp [QRCode.use, hv] at h
  have htime : q.isValidTime now = true := by
    by_contra ht
    simp only [Bool.not_eq_true] at ht
    simp [QRCode.use, hv, ht] at h
  have hlt := isValid_true_uses_lt hv
  by_cases hm : q.max_uses ≤ q.current_uses + 1
  · simp [QRCode.use, hv, htime, hm] at h
    obtain ⟨hq, hr⟩ := h
    subst hq
    subst hr
    refine ⟨hlt, rfl, rfl, rfl, ?_, rfl, fun _ => rfl⟩
    show (0 : Nat) = q.max_uses - (q.current_uses + 1)
    omega
  · simp [QRCode.use, hv, htime, hm] at h
    obtain ⟨hq, hr⟩ := h
    subst hq
    subst hr
    refine ⟨hlt, rfl, rfl, rfl, rfl, rfl, fun hc => ?_⟩
    exfalso
    have hc2 : q.current_uses + 1 = q.max_uses := hc
    omega

theorem use_error_of_saturated (q : QRCode) (now : Nat) (cid : String)
    (h : q.max_uses ≤ q.current_uses) :
    ∃ msg, q.use now cid = .error msg := by
  by_cases ha : q.is_active
  · exact ⟨"Código agotado", by simp [QRCode.use, QRCode.isValid, ha, h]⟩
  · exact ⟨"Código desactivado", by simp [QRCode.use, QRCode.isValid, ha]⟩

theorem useStep_preserves {q : QRCode} (h : q.current_uses ≤ q.max_uses)
    (now : Nat) (cid : String) :
    (q.useStep now cid).current_uses ≤ (q.useStep now cid).max_uses := by
  unfold QRCode.useStep
  cases hu : q.use now cid with
  | ok a =>
    obtain ⟨q2, r⟩ := a
    obtain ⟨hlt, h1, h2, -⟩ := use_ok_effects hu
    show q2.current_uses ≤ q2.max_uses
    omega
  | error e => exact h



/-- C5: `current_uses` never exceeds `max_uses` under any sequence of use
attempts; each valid use increments `current_uses` and the total scan
counter and returns the remaining-uses count plus the prize category, and
the gate is marked used when the cap is reached; once
`current_uses = max_uses` every further use attempt is rejected — and with
`max_uses = 3` three consumptions succeed and the fourth fails. -/
theorem c5_scan_gate_cap :
    (∀ (q : QRCode) (attempts : List (Nat × String)),
      q.current_uses ≤ q.max_uses →
      (q.useRun attempts).current_uses ≤ (q.useRun attempts).max_uses) ∧
    (∀ (q q' : QRCode) (now : Nat) (cid : String) (res : UseResult),
      q.use now cid = .ok (q', res) →
      q'.current_uses = q.current_uses + 1 ∧
      q'.scan_count = q.scan_count + 1 ∧
      res.uses_remaining = q.max_uses - (q.current_uses + 1) ∧
      res.prize_category = q.prize_category ∧
      (q'.current_uses = q'.max_uses → q'.is_used = true)) ∧
    (∀ (q : QRCode) (now : Nat) (cid : String),
      q.max_uses ≤ q.current_uses → ∃ msg, q.use now cid = .error msg) ∧
    ((∃ a, qrC5.use 1 "c" = .ok a) ∧
      (∃ a, (qrC5.useStep 1 "c").use 2 "c" = .ok a) ∧
      (∃ a, ((qrC5.useStep 1 "c").useStep 2 "c").use 3 "c" = .ok a) ∧
      (((qrC5.useStep 1 "c").useStep 2 "c").useStep 3 "c").is_used = true ∧
      (((qrC5.useStep 1 "c").useStep 2 "c").useStep 3 "c").current_uses = 3 ∧
      ((((qrC5.useStep 1 "c").useStep 2 "c").useStep 3 "c").use 4 "c" =
        .error "Código agotado")) := by
  refine ⟨?_, ?_, ?_, ?_⟩
  · intro q attempts
    induction attempts generalizing q with
    | nil => exact fun h => h
    | cons a as ih =>
      intro h
      exact ih (q.useStep a.1 a.2) (useStep_preserves h a.1 a.2)
  · intro q q' now cid res h
    obtain ⟨-, h1, -, h2, h3, h4, h5⟩ := use_ok_effects h
    exact ⟨h1, h2, h3, h4, h5⟩
  · exact use_error_of_saturated
  · exact ⟨⟨_, rfl⟩, ⟨_, rfl⟩, ⟨_, rfl⟩, rfl, rfl, rfl⟩

/-- Witness for C5: a saturated gate rejects a further use attempt. -/
theorem c5_scan_gate_cap_witness :
    ∃ msg, qrSatC5.use 9 "c" = Except.error msg :=
  c5_scan_gate_cap.2.2.1 qrSatC5 9 "c" (by decide)

theorem prefixWeight_zero (l : List Sector) : prefixWeight l 0 = 0 := rfl

theorem prefixWeight_cons (s : Sector) (rest : List Sector) (k : Nat) :
    prefixWeight (s :: rest) (k + 1) =
      s.probability + prefixWeight rest k := by
  simp [prefixWeight, List.take_succ_cons]

theorem selectWalk_none_iff (l : List Sector) (r : Rat) :
    ∀ (acc : Rat) (i : Nat),
    selectWalk l r acc i = none ↔
      ∀ k, k < l.length → ¬(r ≤ acc + prefixWeight l (k + 1)) := by
  induction l with
  | nil => intro acc i; simp [selectWalk]
  | cons s rest ih =>
    intro acc i
    by_cases hr : r ≤ acc + s.probability
    · refine iff_of_false (by simp [selectWalk, hr]) ?_
      intro hall
      exact (hall 0 (Nat.succ_pos _))
        (by rw [prefixWeight_cons, prefixWeight_zero, add_zero]; exact hr)
    · rw [show selectWalk (s :: rest) r acc i
          = selectWalk rest r (acc + s.probability) (i + 1) from by
            simp [selectWalk, hr]]
      rw [ih (acc + s.probability) (i + 1)]
      constructor
      · intro hall k hk
        cases k with
        | zero =>
          rw [prefixWeight_cons, prefixWeight_zero, add_zero]
          exact hr
        | succ k =>
          rw [prefixWeight_cons, ← add_assoc]
          exact hall k (by simpa using hk)
      · intro hall k hk
        rw [add_assoc, ← prefixWeight_cons]
        exact hall (k + 1) (by simpa using hk)

theorem selectWalk_some_at (l : List Sector) (r : Rat) :
    ∀ (acc : Rat) (i k : Nat) (hk : k < l.length),
    (∀ j, j < k → ¬(r ≤ acc + prefixWeight l (j + 1))) →
    r ≤ acc + prefixWeight l (k + 1) →
    selectWalk l r acc i =
      some ⟨(l.get ⟨k, hk⟩).prize_id, i + k, l.get ⟨k, hk⟩⟩ := by
  induction l with
  | nil => intro acc i k hk; exact absurd hk (by simp)
  | cons s rest ih =>
    intro acc i k hk hfirst hsel
    cases k with
    | zero =>
      rw [prefixWeight_cons, prefixWeight_zero, add_zero] at hsel
      simp [selectWalk, hsel]
    | succ k =>
      have h0 : ¬(r ≤ acc + s.probability) := by
        have := hfirst 0 (Nat.succ_pos _)
        rwa [prefixWeight_cons, prefixWeight_zero, add_zero] at this
      have hk' : k < rest.length := by simpa using hk
      have hfirst' : ∀ j, j < k →
          ¬(r ≤ acc + s.probability + prefixWeight rest (j + 1)) := by
        intro j hj
        have := hfirst (j + 1) (by simpa using hj)
        rwa [prefixWeight_cons, ← add_assoc] at this
      have hsel' : r ≤ acc + s.probability + prefixWeight rest (k + 1) := by
        rw [add_assoc, ← prefixWeight_cons]
        exact hsel
      have h := ih (acc + s.probability) (i + 1) k hk' hfirst' hsel'
      rw [show selectWalk (s :: rest) r acc i
          = selectWalk rest r (acc + s.probability) (i + 1) from by
            simp [selectWalk, h0], h]
      have : i + 1 + k = i + (k + 1) := by omega
      simp [this]

/-- C2: `selectPrize` draws `Math.random() * 100`, a value in `[0, 100)`;
it walks the sector list in stored order accumulating the weights and
returns the first sector whose cumulative total is at least the drawn
value, with its index and configuration; when the walk selects no sector it
deterministically returns the last sector with index `length - 1`. -/
theorem c2_selectPrize_inverse_cdf :
    (∀ u : Rat, 0 ≤ u → u < 1 → 0 ≤ drawRandom u ∧ drawRandom u < 100) ∧
    (∀ (sectors : List Sector) (r : Rat) (k : Nat) (hk : k < sectors.length),
      (∀ j, j < k → ¬(r ≤ prefixWeight sectors (j + 1))) →
      r ≤ prefixWeight sectors (k + 1) →
      Roulette.selectPrize sectors r =
        .ok ⟨(sectors.get ⟨k, hk⟩).prize_id, k, sectors.get ⟨k, hk⟩⟩) ∧
    (∀ (sectors : List Sector) (r : Rat) (h : sectors ≠ []),
      (∀ k, k < sectors.length → ¬(r ≤ prefixWeight sectors (k + 1))) →
      Roulette.selectPrize sectors r =
        .ok ⟨(sectors.getLast h).prize_id, sectors.length - 1,
          sectors.getLast h⟩) := by
  refine ⟨?_, ?_, ?_⟩
  · intro u h0 h1
    constructor
    · exact mul_nonneg h0 (by norm_num)
    · calc u * 100 < 1 * 100 :=
            mul_lt_mul_of_pos_right h1 (by norm_num)
        _ = 100 := by norm_num
  · intro sectors r k hk hfirst hsel
    cases sectors with
    | nil => exact absurd hk (by simp)
    | cons s rest =>
      have hw := selectWalk_some_at (s :: rest) r 0 0 k hk
        (fun j hj => by rw [zero_add]; exact hfirst j hj)
        (by rw [zero_add]; exact hsel)
      simp [Roulette.selectPrize, hw]
  · intro sectors r h hall
    cases sectors with
    | nil => exact absurd rfl h
    | cons s rest =>
      have hw := (selectWalk_none_iff (s :: rest) r 0 0).mpr
        (fun k hk => by rw [zero_add]; exact hall k hk)
      simp [Roulette.selectPrize, hw]


/-- Witness for C2: with the draw 70, the cumulative walk passes sector 0
(total 60) and stops at sector 1 (total 100). -/
theorem c2_selectPrize_inverse_cdf_witness :
    Roulette.selectPrize sectorsC2 70 =
      Except.ok ⟨"prize-b", 1, ⟨"prize-b", 40, "#222222"⟩⟩ :=
  c2_selectPrize_inverse_cdf.2.1 sectorsC2 70 1 (by decide)
    (fun j hj => by
      have hj0 : j = 0 := by omega
      subst hj0
      norm_num [prefixWeight, sectorsC2])
    (by norm_num [prefixWeight, sectorsC2])

theorem firstBadSector_none_iff :
    ∀ (l : List Sector) (i : Nat),
    firstBadSector l i = none ↔ ∀ s ∈ l, sectorFieldsTruthy s = true := by
  intro l
  induction l with
  | nil => intro i; simp [firstBadSector]
  | cons s rest ih =>
    intro i
    by_cases h : sectorFieldsTruthy s
    · simp [firstBadSector, h, ih]
    · simp [firstBadSector, h]

theorem rouletteSaveValidation_ok_iff (existing : List String)
    (sectors : List Sector) :
    rouletteSaveValidation existing sectors = .ok () ↔
      |(sectors.map Sector.probability).sum - 100| ≤ 1 / 100 ∧
      (∀ s ∈ sectors, sectorFieldsTruthy s = true) ∧
      (∀ s ∈ sectors, existing.contains s.prize_id = true) := by
  unfold rouletteSaveValidation isValidSectors
  by_cases htol : (1 : Rat) / 100 <
      |(sectors.map Sector.probability).sum - 100|
  · refine iff_of_false ?_ ?_
    · dsimp only
      rw [if_pos htol]
      simp [Bind.bind, Except.bind]
    · rintro ⟨h, -, -⟩
      exact absurd htol (not_lt.mpr h)
  · cases hfb : firstBadSector sectors 0 with
    | some i =>
      refine iff_of_false ?_ ?_
      · dsimp only
        rw [if_neg htol]
        simp [Bind.bind, Except.bind]
      · rintro ⟨-, hall, -⟩
        have := (firstBadSector_none_iff sectors 0).mpr hall
        rw [hfb] at this
        exact Option.noConfusion this
    | none =>
      cases sectors with
      | nil =>
        exfalso
        apply htol
        norm_num
      | cons s rest =>
        have hall := (firstBadSector_none_iff (s :: rest) 0).mp hfb
        simp only [htol, hfb, if_false, Bind.bind, Except.bind,
          List.length_cons, if_true]
        unfold validateSectorsConfiguration
        cases hfind : (s :: rest).find?
            (fun x => !existing.contains x.prize_id) with
        | some bad =>
          rw [if_pos (Nat.succ_pos rest.length)]
          refine iff_of_false (by simp) ?_
          rintro ⟨-, -, hcont⟩
          have hbad := List.find?_some hfind
          have hmem := List.mem_of_find?_eq_some hfind
          rw [hcont bad hmem] at hbad
          simp at hbad
        | none =>
          rw [if_pos (Nat.succ_pos rest.length)]
          refine iff_of_true rfl ⟨not_lt.mp htol, hall, ?_⟩
          intro x hx
          have := List.find?_eq_none.mp hfind x hx
          simpa using this


/-- C3 counterexample: a configuration with a negative sector weight is
accepted by the save-time validation (the validator checks the sum and the
truthiness of each field but never non-negativity), refuting the claim
that every accepted configuration has only non-negative weights. -/
theorem c3_counterexample_negative_weight_accepted :
    rouletteSaveValidation ["prize-a", "prize-b"] sectorsC3 =
        Except.ok () ∧
      sectorsC3.any (fun s => decide (s.probability < 0)) = true := by
  constructor
  · rw [rouletteSaveValidation_ok_iff]
    refine ⟨by norm_num [sectorsC3], ?_, ?_⟩
    · intro s hs
      simp only [sectorsC3, List.mem_cons, List.not_mem_nil, or_false] at hs
      rcases hs with h | h <;> subst h <;>
        norm_num [sectorFieldsTruthy] <;> exact ⟨by decide, by decide⟩
    · intro s hs
      simp only [sectorsC3, List.mem_cons, List.not_mem_nil, or_false] at hs
      rcases hs with h | h <;> subst h <;> decide
  · refine List.any_eq_true.mpr ⟨⟨"prize-a", -5, "#111111"⟩, ?_, ?_⟩
    · simp [sectorsC3]
    · norm_num

/-- C3 (amended): whenever a selector configuration is saved, validation
rejects it unless the sector weights sum to 100 within a 0.01 tolerance,
every sector has a non-empty prize reference, a non-zero weight and a
non-empty color, and every sector's prize reference resolves to an
existing prize; configurations passing these checks are accepted.
Non-negativity of individual weights is not checked. -/
theorem c3_amended_save_validation (existing : List String)
    (sectors : List Sector) :
    rouletteSaveValidation existing sectors = .ok () ↔
      |(sectors.map Sector.probability).sum - 100| ≤ 1 / 100 ∧
      (∀ s ∈ sectors,
        s.prize_id ≠ "" ∧ s.probability ≠ 0 ∧ s.color ≠ "") ∧
      (∀ s ∈ sectors, existing.contains s.prize_id = true) := by
  rw [rouletteSaveValidation_ok_iff]
  constructor
  · rintro ⟨h1, h2, h3⟩
    refine ⟨h1, ?_, h3⟩
    intro s hs
    have := h2 s hs
    simp only [sectorFieldsTruthy, Bool.and_eq_true, bne_iff_ne] at this
    exact ⟨this.1.1, this.1.2, this.2⟩
  · rintro ⟨h1, h2, h3⟩
    refine ⟨h1, ?_, h3⟩
    intro s hs
    have := h2 s hs
    simp only [sectorFieldsTruthy, Bool.and_eq_true, bne_iff_ne]
    exact ⟨⟨this.1, this.2.1⟩, this.2.2⟩


/-- Witness for C3 (amended): a single full-weight sector whose prize
exists is accepted. -/
theorem c3_amended_save_validation_witness :
    rouletteSaveValidation ["prize-a"] sectorsC3ok = Except.ok () := by
  rw [c3_amended_save_validation]
  refine ⟨by norm_num [sectorsC3ok], ?_, ?_⟩
  · intro s hs
    simp only [sectorsC3ok, List.mem_cons, List.not_mem_nil, or_false] at hs
    subst hs
    exact ⟨by decide, by norm_num, by decide⟩
  · intro s hs
    simp only [sectorsC3ok, List.mem_cons, List.not_mem_nil, or_false] at hs
    subst hs
    decide

theorem canBeApplied_not_pending {w : Winning} {now : Nat}
    (h : w.status ≠ .pending) :
    w.canBeApplied now = ⟨false, some ("Premio ya " ++ w.status.text)⟩ := by
  unfold Winning.canBeApplied
  rw [if_pos h]

theorem apply_not_pending (p : Prize) (st : LifeState) (now : Nat)
    (uid : Option String) (h : st.row.status ≠ .pending) :
    PrizeWinning.apply p st now uid =
      ⟨st, some ("Premio ya " ++ st.row.status.text)⟩ := by
  unfold PrizeWinning.apply
  rw [canBeApplied_not_pending h]
  rfl

theorem canBeApplied_expired {w : Winning} {now : Nat}
    (hp : w.status = .pending) (hexp : w.isExpired now = true) :
    w.canBeApplied now = ⟨false, some "Premio expirado"⟩ := by
  unfold Winning.canBeApplied
  rw [if_neg (fun hn => hn hp), if_pos hexp]

theorem canBeApplied_unverified {w : Winning} {now : Nat}
    (hp : w.status = .pending) (hexp : ¬w.isExpired now = true)
    (hver : (w.requires_verification && !w.verified) = true) :
    w.canBeApplied now = ⟨false, some "Requiere verificación"⟩ := by
  unfold Winning.canBeApplied
  rw [if_neg (fun hn => hn hp), if_neg hexp, if_pos hver]

theorem canBeApplied_ok {w : Winning} {now : Nat}
    (hp : w.status = .pending) (hexp : ¬w.isExpired now = true)
    (hver : ¬(w.requires_verification && !w.verified) = true) :
    w.canBeApplied now = ⟨true, none⟩ := by
  unfold Winning.canBeApplied
  rw [if_neg (fun hn => hn hp), if_neg hexp, if_neg hver]

theorem apply_state (p : Prize) (st : LifeState) (now : Nat)
    (uid : Option String) :
    (PrizeWinning.apply p st now uid).state = st ∨
    (st.row.status = .pending ∧ p.auto_apply = true ∧
      (PrizeWinning.apply p st now uid).state =
        ⟨{ st.row with
            status := .applied
            auto_applied := true
            applied_date := some now
            processed_by_user_id := uid
            notification_sent := true }, st.sideEffects + 1⟩) := by
  by_cases hp : st.row.status = .pending
  · by_cases hexp : st.row.isExpired now = true
    · unfold PrizeWinning.apply
      rw [canBeApplied_expired hp hexp]
      exact Or.inl rfl
    · by_cases hver :
          (st.row.requires_verification && !st.row.verified) = true
      · unfold PrizeWinning.apply
        rw [canBeApplied_unverified hp hexp hver]
        exact Or.inl rfl
      · unfold PrizeWinning.apply
        rw [canBeApplied_ok hp hexp hver]
        by_cases hauto : p.auto_apply = true
        · rw [if_pos hauto]
          exact Or.inr ⟨hp, hauto, rfl⟩
        · rw [if_neg hauto]
          exact Or.inl rfl
  · rw [apply_not_pending p st now uid hp]
    exact Or.inl rfl

theorem redeem_state (st : LifeState) (now : Nat) (uid : Option String)
    (notes : Option String) :
    (PrizeWinning.redeem st now uid notes).state = st ∨
    (st.row.status = .pending ∧
      (PrizeWinning.redeem st now uid notes).state =
        ⟨{ st.row with
            status := .redeemed
            redeemed_date := some now
            processed_by_user_id := uid
            processing_notes := notes
            notification_sent := true }, st.sideEffects⟩) := by
  unfold PrizeWinning.redeem
  split_ifs with h1 h2
  · exact Or.inl rfl
  · exact Or.inl rfl
  · exact Or.inr ⟨not_not.mp h1, rfl⟩

theorem cancel_state (st : LifeState) (now : Nat) (uid reason : String) :
    (PrizeWinning.cancel st now uid reason).state = st ∨
    (st.row.status ≠ .applied ∧ st.row.status ≠ .redeemed ∧
      (PrizeWinning.cancel st now uid reason).state =
        ⟨{ st.row with
            status := .cancelled
            cancelled_date := some now
            cancelled_by_user_id := some uid
            cancelled_reason := some reason
            notification_sent := true }, st.sideEffects⟩) := by
  unfold PrizeWinning.cancel
  split_ifs with h1
  · exact Or.inl rfl
  · rw [not_or] at h1
    exact Or.inr ⟨h1.1, h1.2, rfl⟩

theorem apply_inv (p : Prize) (st : LifeState) (now : Nat)
    (uid : Option String) (h1 : st.sideEffects ≤ 1)
    (h2 : st.sideEffects = 1 → st.row.status = .applied) :
    (PrizeWinning.apply p st now uid).state.sideEffects ≤ 1 ∧
    ((PrizeWinning.apply p st now uid).state.sideEffects = 1 →
      (PrizeWinning.apply p st now uid).state.row.status = .applied) := by
  rcases apply_state p st now uid with h | ⟨hp, -, h⟩
  · rw [h]
    exact ⟨h1, h2⟩
  · rw [h]
    have hse : st.sideEffects = 0 := by
      by_contra hne
      have h1e : st.sideEffects = 1 := by omega
      exact absurd ((h2 h1e).symm.trans hp) (by decide)
    exact ⟨by show st.sideEffects + 1 ≤ 1; omega, fun _ => rfl⟩

theorem verify_def (p : Prize) (st : LifeState) (now : Nat)
    (uid : String) :
    PrizeWinning.verify p st now uid =
      if p.auto_apply = true then
        PrizeWinning.apply p
          ⟨st.row.recordVerification now uid, st.sideEffects⟩ now (some uid)
      else ⟨⟨st.row.recordVerification now uid, st.sideEffects⟩, none⟩ :=
  rfl

theorem runOp_terminal (op : LifeOp) (st : LifeState)
    (h : st.row.status = .applied ∨ st.row.status = .redeemed) :
    (runOp op st).state.row.status = st.row.status ∧
    (runOp op st).state.sideEffects = st.sideEffects := by
  have hnp : st.row.status ≠ .pending := by
    rcases h with h | h <;> rw [h] <;> decide
  cases op with
  | applyP p now uid =>
    simp only [runOp]
    rw [apply_not_pending p st now uid hnp]
    exact ⟨rfl, rfl⟩
  | redeemP now uid notes =>
    simp only [runOp]
    unfold PrizeWinning.redeem
    rw [if_pos hnp]
    exact ⟨rfl, rfl⟩
  | verifyP p now uid =>
    simp only [runOp]
    rw [verify_def]
    by_cases hauto : p.auto_apply = true
    · rw [if_pos hauto]
      set stv : LifeState :=
        ⟨st.row.recordVerification now uid, st.sideEffects⟩ with hstv
      have hnp2 : stv.row.status ≠ .pending := hnp
      rw [apply_not_pending p stv now (some uid) hnp2]
      exact ⟨rfl, rfl⟩
    · rw [if_neg hauto]
      exact ⟨rfl, rfl⟩
  | cancelP now uid reason =>
    simp only [runOp]
    unfold PrizeWinning.cancel
    rw [if_pos h]
    exact ⟨rfl, rfl⟩

theorem runOp_cancelled (op : LifeOp) (st : LifeState)
    (h : st.row.status = .cancelled) :
    (runOp op st).state.row.status = .cancelled ∧
    (runOp op st).state.sideEffects = st.sideEffects := by
  have hnp : st.row.status ≠ .pending := by rw [h]; decide
  have hcon : ¬(st.row.status = .applied ∨ st.row.status = .redeemed) := by
    rw [h]; decide
  cases op with
  | applyP p now uid =>
    simp only [runOp]
    rw [apply_not_pending p st now uid hnp]
    exact ⟨h, rfl⟩
  | redeemP now uid notes =>
    simp only [runOp]
    unfold PrizeWinning.redeem
    rw [if_pos hnp]
    exact ⟨h, rfl⟩
  | verifyP p now uid =>
    simp only [runOp]
    rw [verify_def]
    by_cases hauto : p.auto_apply = true
    · rw [if_pos hauto]
      set stv : LifeState :=
        ⟨st.row.recordVerification now uid, st.sideEffects⟩ with hstv
      have hnp2 : stv.row.status ≠ .pending := hnp
      rw [apply_not_pending p stv now (some uid) hnp2]
      exact ⟨h, rfl⟩
    · rw [if_neg hauto]
      exact ⟨h, rfl⟩
  | cancelP now uid reason =>
    simp only [runOp]
    unfold PrizeWinning.cancel
    rw [if_neg hcon]
    exact ⟨rfl, rfl⟩

theorem runOp_inv (op : LifeOp) (st : LifeState)
    (h1 : st.sideEffects ≤ 1)
    (h2 : st.sideEffects = 1 → st.row.status = .applied) :
    (runOp op st).state.sideEffects ≤ 1 ∧
    ((runOp op st).state.sideEffects = 1 →
      (runOp op st).state.row.status = .applied) := by
  cases op with
  | applyP p now uid =>
    simp only [runOp]
    exact apply_inv p st now uid h1 h2
  | redeemP now uid notes =>
    simp only [runOp]
    rcases redeem_state st now uid notes with h | ⟨hpend, heq⟩
    · rw [h]
      exact ⟨h1, h2⟩
    · rw [heq]
      refine ⟨h1, fun hse => ?_⟩
      exact absurd ((h2 hse).symm.trans hpend) (by decide)
  | verifyP p now uid =>
    simp only [runOp]
    rw [verify_def]
    by_cases hauto : p.auto_apply = true
    · rw [if_pos hauto]
      exact apply_inv p _ now (some uid) h1 h2
    · rw [if_neg hauto]
      exact ⟨h1, fun hse => h2 hse⟩
  | cancelP now uid reason =>
    simp only [runOp]
    rcases cancel_state st now uid reason with h | ⟨hna, -, heq⟩
    · rw [h]
      exact ⟨h1, h2⟩
    · rw [heq]
      exact ⟨h1, fun hse => absurd (h2 hse) hna⟩

theorem runOps_inv (ops : List LifeOp) :
    ∀ st : LifeState, st.sideEffects ≤ 1 →
    (st.sideEffects = 1 → st.row.status = .applied) →
    (runOps ops st).sideEffects ≤ 1 ∧
    ((runOps ops st).sideEffects = 1 →
      (runOps ops st).row.status = .applied) := by
  induction ops with
  | nil => exact fun st h1 h2 => ⟨h1, h2⟩
  | cons op ops ih =>
    intro st h1 h2
    have h := runOp_inv op st h1 h2
    exact ih (runOp op st).state h.1 h.2

/-- C1: over every sequence of lifecycle operations (apply, redeem,
verify, cancel), a won-prize record whose status is `applied` or `redeemed`
never changes status again; the prize side effect runs at most once; once a
record is `cancelled` it stays `cancelled` and no further side effect ever
runs; and `apply()` on a record whose status is not `pending` (including
`cancelled`) leaves the state untouched and raises the state error. -/
theorem c1_lifecycle_terminal_single_side_effect :
    (∀ (ops : List LifeOp) (st : LifeState),
      st.row.status = .applied ∨ st.row.status = .redeemed →
      (runOps ops st).row.status = st.row.status) ∧
    (∀ (ops : List LifeOp) (st : LifeState),
      st.sideEffects = 0 → (runOps ops st).sideEffects ≤ 1) ∧
    (∀ (ops : List LifeOp) (st : LifeState),
      st.row.status = .cancelled →
      (runOps ops st).row.status = .cancelled ∧
      (runOps ops st).sideEffects = st.sideEffects) ∧
    (∀ (p : Prize) (st : LifeState) (now : Nat) (uid : Option String),
      st.row.status ≠ .pending →
      PrizeWinning.apply p st now uid =
        ⟨st, some ("Premio ya " ++ st.row.status.text)⟩) := by
  refine ⟨?_, ?_, ?_, apply_not_pending⟩
  · intro ops
    induction ops with
    | nil => exact fun st _ => rfl
    | cons op ops ih =>
      intro st h
      have ht := runOp_terminal op st h
      have h2 : (runOp op st).state.row.status = .applied ∨
          (runOp op st).state.row.status = .redeemed := by
        rw [ht.1]; exact h
      exact (ih (runOp op st).state h2).trans ht.1
  · intro ops st h0
    exact (runOps_inv ops st (by omega)
      (fun h => absurd (h0.symm.trans h) (by decide))).1
  · intro ops st
    induction ops generalizing st with
    | nil => exact fun h => ⟨h, rfl⟩
    | cons op ops ih =>
      intro h
      have hc := runOp_cancelled op st h
      have hrest := ih (runOp op st).state hc.1
      exact ⟨hrest.1, hrest.2.trans hc.2⟩


/-- Witness for C1: a cancel attempt on an `applied` record leaves its
status `applied`. -/
theorem c1_lifecycle_terminal_single_side_effect_witness :
    (runOps [LifeOp.cancelP 5 "staff" "x"] ⟨winAppliedC1, 1⟩).row.status =
      WStatus.applied :=
  c1_lifecycle_terminal_single_side_effect.1
    [LifeOp.cancelP 5 "staff" "x"] ⟨winAppliedC1, 1⟩ (Or.inl rfl)


/-- C6 counterexample: invoking `cancel` again on an already-`cancelled`
record does not fail — it succeeds (error `none`), refuting the claim that
re-cancelling raises a state-conflict error. -/
theorem c6_counterexample_recancel_succeeds :
    (⟨winCancelledC6, 0⟩ : LifeState).row.status = WStatus.cancelled ∧
    (PrizeWinning.cancel ⟨winCancelledC6, 0⟩ 10 "staff" "otra vez").error =
      none :=
  ⟨rfl, rfl⟩

/-- C6 (amended): `cancel` succeeds on a `pending` record, setting status
`cancelled` with the cancellation timestamp and reason, and fails with the
state-conflict error on an `applied` or `redeemed` record; but invoked
again on an already-`cancelled` (or `expired`) record it succeeds once
more, overwriting the cancellation fields, rather than failing. -/
theorem c6_amended_cancel :
    (∀ (st : LifeState) (now : Nat) (uid reason : String),
      st.row.status = .pending →
      PrizeWinning.cancel st now uid reason =
        ⟨⟨{ st.row with
              status := .cancelled
              cancelled_date := some now
              cancelled_by_user_id := some uid
              cancelled_reason := some reason
              notification_sent := true }, st.sideEffects⟩, none⟩) ∧
    (∀ (st : LifeState) (now : Nat) (uid reason : String),
      st.row.status = .applied ∨ st.row.status = .redeemed →
      PrizeWinning.cancel st now uid reason =
        ⟨st, some "No se puede cancelar un premio ya aplicado o canjeado"⟩) ∧
    (∀ (st : LifeState) (now : Nat) (uid reason : String),
      st.row.status = .cancelled →
      (PrizeWinning.cancel st now uid reason).error = none ∧
      (PrizeWinning.cancel st now uid reason).state.row.status =
        .cancelled) := by
  refine ⟨?_, ?_, ?_⟩
  · intro st now uid reason hp
    unfold PrizeWinning.cancel
    rw [if_neg (fun hc => hc.elim
      (fun ha => absurd (hp.symm.trans ha) (by decide))
      (fun hr => absurd (hp.symm.trans hr) (by decide)))]
  · intro st now uid reason h
    unfold PrizeWinning.cancel
    rw [if_pos h]
  · intro st now uid reason h
    unfold PrizeWinning.cancel
    rw [if_neg (fun hc => hc.elim
      (fun ha => absurd (h.symm.trans ha) (by decide))
      (fun hr => absurd (h.symm.trans hr) (by decide)))]
    exact ⟨rfl, rfl⟩


/-- Witness for C6 (amended): cancelling a pending record succeeds and
sets status `cancelled`. -/
theorem c6_amended_cancel_witness :
    PrizeWinning.cancel ⟨winPending, 0⟩ 7 "staff" "motivo" =
      ⟨⟨{ winPending with
            status := .cancelled
            cancelled_date := some 7
            cancelled_by_user_id := some "staff"
            cancelled_reason := some "motivo"
            notification_sent := true }, 0⟩, none⟩ :=
  c6_amended_cancel.1 ⟨winPending, 0⟩ 7 "staff" "motivo" rfl

/-- C9 counterexample: cancelling a pending record at minute 5 with one
reason and then cancelling again at minute 9 with another reason leaves
exactly the same persisted record as cancelling once at minute 9 — the
first transition left no appended history entry anywhere, so transitions
overwrite state rather than appending to an append-only trail (no previous
status or per-transition entry is recorded). -/
theorem c9_counterexample_no_history_trail :
    runOps [LifeOp.cancelP 5 "staff" "motivo uno",
        LifeOp.cancelP 9 "staff" "motivo dos"] ⟨winPending, 0⟩ =
      runOps [LifeOp.cancelP 9 "staff" "motivo dos"] ⟨winPending, 0⟩ ∧
    "motivo uno" ≠ "motivo dos" :=
  ⟨rfl, by decide⟩

/-- C9 (amended): each won-prize lifecycle transition records the new
status and its own timestamp field on the record itself (`cancelled_date`
plus a cancellation reason for cancel, `redeemed_date` for redeem,
`applied_date` for apply); there is no append-only history trail, the
previous status is not recorded, and a repeated cancellation overwrites the
previously stored cancellation timestamp and reason. -/
theorem c9_amended_transition_fields :
    (∀ (st : LifeState) (now : Nat) (uid reason : String),
      st.row.status ≠ .applied → st.row.status ≠ .redeemed →
      (PrizeWinning.cancel st now uid reason).state.row.status =
          .cancelled ∧
        (PrizeWinning.cancel st now uid reason).state.row.cancelled_date =
          some now ∧
        (PrizeWinning.cancel st now uid reason).state.row.cancelled_reason =
          some reason) ∧
    (∀ (st : LifeState) (now : Nat) (uid notes : Option String),
      st.row.status = .pending → st.row.isExpired now = false →
      (PrizeWinning.redeem st now uid notes).state.row.status =
          .redeemed ∧
        (PrizeWinning.redeem st now uid notes).state.row.redeemed_date =
          some now) ∧
    (∀ (p : Prize) (st : LifeState) (now : Nat) (uid : Option String),
      st.row.status = .pending → st.row.isExpired now = false →
      (st.row.requires_verification && !st.row.verified) = false →
      p.auto_apply = true →
      (PrizeWinning.apply p st now uid).state.row.status = .applied ∧
        (PrizeWinning.apply p st now uid).state.row.applied_date =
          some now) ∧
    (∀ (st : LifeState) (t1 t2 : Nat) (u1 u2 r1 r2 : String),
      st.row.status ≠ .applied → st.row.status ≠ .redeemed →
      (PrizeWinning.cancel (PrizeWinning.cancel st t1 u1 r1).state
          t2 u2 r2).state.row.cancelled_reason = some r2 ∧
        (PrizeWinning.cancel (PrizeWinning.cancel st t1 u1 r1).state
          t2 u2 r2).state.row.cancelled_date = some t2) := by
  refine ⟨?_, ?_, ?_, ?_⟩
  · intro st now uid reason hna hnr
    unfold PrizeWinning.cancel
    rw [if_neg (fun hc => hc.elim hna hnr)]
    exact ⟨rfl, rfl, rfl⟩
  · intro st now uid notes hp hexp
    unfold PrizeWinning.redeem
    rw [if_neg (fun hn => hn hp),
      if_neg (fun hc => by rw [hexp] at hc; cases hc)]
    exact ⟨rfl, rfl⟩
  · intro p st now uid hp hexp hver hauto
    unfold PrizeWinning.apply
    rw [canBeApplied_ok hp (fun hc => by rw [hexp] at hc; cases hc)
      (fun hc => by rw [hver] at hc; cases hc)]
    rw [if_pos hauto]
    exact ⟨rfl, rfl⟩
  · intro st t1 t2 u1 u2 r1 r2 hna hnr
    rcases cancel_state st t1 u1 r1 with h | ⟨-, -, h⟩
    · rw [h]
      unfold PrizeWinning.cancel
      rw [if_neg (fun hc => hc.elim hna hnr)]
      exact ⟨rfl, rfl⟩
    · rw [h]
      unfold PrizeWinning.cancel
      rw [if_neg (fun hc => hc.elim
        (fun ha => WStatus.noConfusion ha)
        (fun hr => WStatus.noConfusion hr))]
      exact ⟨rfl, rfl⟩

/-- Witness for C9 (amended): cancelling the fresh pending record at
minute 5 records the cancellation timestamp and reason on the record. -/
theorem c9_amended_transition_fields_witness :
    (PrizeWinning.cancel ⟨winPending, 0⟩ 5 "staff" "motivo").state.row.status
        = WStatus.cancelled ∧
      (PrizeWinning.cancel ⟨winPending, 0⟩ 5 "staff"
        "motivo").state.row.cancelled_date = some 5 ∧
      (PrizeWinning.cancel ⟨winPending, 0⟩ 5 "staff"
        "motivo").state.row.cancelled_reason = some "motivo" :=
  c9_amended_transition_fields.1 ⟨winPending, 0⟩ 5 "staff" "motivo"
    (by decide) (by decide)

theorem genAttempt_length (rnd : Nat → Fin 32) (k : Nat) :
    (genAttempt rnd k).length = 8 := by
  simp [genAttempt]

theorem genAttempt_mem (rnd : Nat → Fin 32) (k : Nat) :
    ∀ c ∈ genAttempt rnd k, c ∈ redemptionChars := by
  intro c hc
  simp only [genAttempt, List.mem_map] at hc
  obtain ⟨i, -, rfl⟩ := hc
  exact List.get_mem _ _ _

theorem genLoop_ok (existing : List (List Char)) (rnd : Nat → Fin 32) :
    ∀ (fuel k : Nat) (code : List Char),
    genLoop existing rnd k fuel = .ok code →
    existing.contains code = false ∧ ∃ j, code = genAttempt rnd (k + j) := by
  intro fuel
  induction fuel with
  | zero => intro k code h; exact Except.noConfusion h
  | succ fuel ih =>
    intro k code h
    rw [show genLoop existing rnd k (fuel + 1) =
        (if existing.contains (genAttempt rnd k) = true then
          genLoop existing rnd (k + 1) fuel
        else .ok (genAttempt rnd k)) from rfl] at h
    by_cases hc : existing.contains (genAttempt rnd k) = true
    · rw [if_pos hc] at h
      obtain ⟨h1, j, hj⟩ := ih (k + 1) code h
      exact ⟨h1, j + 1,
        by rwa [show k + (j + 1) = k + 1 + j from by omega]⟩
    · rw [if_neg hc] at h
      injection h with h2
      subst h2
      exact ⟨by simpa using hc, 0, by rw [Nat.add_zero]⟩

theorem genLoop_all_collide (existing : List (List Char))
    (rnd : Nat → Fin 32) :
    ∀ (fuel k : Nat),
    (∀ j, j < fuel → existing.contains (genAttempt rnd (k + j)) = true) →
    genLoop existing rnd k fuel =
      .error "No se pudo generar un código de canje único" := by
  intro fuel
  induction fuel with
  | zero => intro k _; rfl
  | succ fuel ih =>
    intro k h
    show (if existing.contains (genAttempt rnd k) = true then
        genLoop existing rnd (k + 1) fuel
      else .ok (genAttempt rnd k)) = _
    rw [if_pos (by simpa using h 0 (Nat.succ_pos _))]
    refine ih (k + 1) (fun j hj => ?_)
    have hh := h (j + 1) (by omega)
    rwa [show k + (j + 1) = k + 1 + j from by omega] at hh

/-- C7: `generateRedemptionCode` returns an 8-character code over the
32-character alphabet without zero, O, one and I, and the returned code
collides with no stored redemption code; when the first generated code
collides and the second does not, exactly one retry happens and the second
code is returned; and when all 10 bounded attempts collide it fails with
the code-generation-exhausted error. -/
theorem c7_generateRedemptionCode :
    (∀ (existing : List (List Char)) (rnd : Nat → Fin 32)
      (code : List Char),
      generateRedemptionCode existing rnd = .ok code →
      code.length = 8 ∧ (∀ c ∈ code, c ∈ redemptionChars) ∧
        existing.contains code = false) ∧
    (∀ (existing : List (List Char)) (rnd : Nat → Fin 32),
      existing.contains (genAttempt rnd 0) = true →
      existing.contains (genAttempt rnd 1) = false →
      generateRedemptionCode existing rnd = .ok (genAttempt rnd 1)) ∧
    (∀ (existing : List (List Char)) (rnd : Nat → Fin 32),
      (∀ k, k < 10 → existing.contains (genAttempt rnd k) = true) →
      generateRedemptionCode existing rnd =
        .error "No se pudo generar un código de canje único") := by
  refine ⟨?_, ?_, ?_⟩
  · intro existing rnd code h
    obtain ⟨hcon, j, hj⟩ := genLoop_ok existing rnd 10 0 code h
    refine ⟨?_, ?_, hcon⟩
    · rw [hj]
      exact genAttempt_length rnd _
    · rw [hj]
      exact genAttempt_mem rnd _
  · intro existing rnd h0 h1
    unfold generateRedemptionCode
    show (if existing.contains (genAttempt rnd 0) = true then
        genLoop existing rnd 1 9
      else .ok (genAttempt rnd 0)) = _
    rw [if_pos h0]
    show (if existing.contains (genAttempt rnd 1) = true then
        genLoop existing rnd 2 8
      else .ok (genAttempt rnd 1)) = _
    rw [if_neg (by rw [h1]; exact Bool.false_ne_true)]
  · intro existing rnd h
    unfold generateRedemptionCode
    exact genLoop_all_collide existing rnd 10 0
      (fun j hj => by simpa using h j hj)


/-- Witness for C7: with one stored code equal to the first attempt, the
issuer retries once and returns the second attempt's code. -/
theorem c7_generateRedemptionCode_witness :
    generateRedemptionCode
        [['A', 'A', 'A', 'A', 'A', 'A', 'A', 'A']] rndC7 =
      Except.ok (genAttempt rndC7 1) :=
  c7_generateRedemptionCode.2.1 _ rndC7 (by decide) (by decide)
